import Mathlib

/-!
Shallow embedding of `src/mysql/mysql_packet_parser.py`, the MySQL
wire-protocol reassembly-and-decode engine, together with proofs about its
behaviour.

Modelling conventions:
* bytes are `Nat` (real traffic has values < 256), byte buffers are `List Nat`;
* Python `str` is Lean `String` (a sequence of Unicode code points);
* fallible Python primitives (`data[i]` indexing, `struct.unpack`) return
  `Except Unit`; a Python `try/except` handler is modelled by matching on the
  `Except` result; Python functions none of whose primitives can raise are
  modelled as pure functions;
* `bytes.decode('utf-8', errors=...)` is modelled by `pyDecodeUtf8Aux`, which
  follows CPython's maximal-subpart error handling.
-/

namespace MySQLTools

/-- Python `data[i]` on a bytes object: `IndexError` when out of range. -/
def byteAt (data : List Nat) (i : Nat) : Except Unit Nat :=
  if h : i < data.length then .ok data[i] else .error ()

/-- Total view of an in-range `data[i]` (used where the source has already
checked the bound, as in a `for i in range(...)` loop). -/
def byteD (data : List Nat) (i : Nat) : Nat := data.getD i 0

/-- Python slice `data[a:b]` for `0 ≤ a ≤ b` (total; clamps at the ends). -/
def pySlice (data : List Nat) (a b : Nat) : List Nat :=
  (data.drop a).take (b - a)

/-- Value of a byte list read little-endian. -/
def leValue : List Nat → Nat
  | [] => 0
  | b :: rest => b + 256 * leValue rest

/-- Python `struct.unpack` of an `n`-byte little-endian unsigned integer:
`struct.error` unless the buffer is exactly `n` bytes long. -/
def unpackLE (n : Nat) (bs : List Nat) : Except Unit Nat :=
  if bs.length = n then .ok (leValue bs) else .error ()

/-- The Unicode replacement character U+FFFD. -/
def replChar : Char := Char.ofNat 0xFFFD

/-- CPython `bytes.decode('utf-8', errors=...)`: `errOut` is emitted for each
ill-formed maximal subpart (`[replChar]` for `errors='replace'`, `[]` for
`errors='ignore'`).  Continuation-byte ranges follow CPython: the second byte
is restricted after lead bytes 0xE0, 0xED, 0xF0 and 0xF4, and on an invalid
continuation byte decoding restarts at that byte. -/
def pyDecodeUtf8Aux (errOut : List Char) : List Nat → List Char
  | [] => []
  | b :: rest =>
    if b < 0x80 then Char.ofNat b :: pyDecodeUtf8Aux errOut rest
    else if 0xC2 ≤ b ∧ b ≤ 0xDF then
      match rest with
      | [] => errOut
      | c1 :: rest1 =>
        if 0x80 ≤ c1 ∧ c1 ≤ 0xBF then
          Char.ofNat ((b - 0xC0) * 64 + (c1 - 0x80)) :: pyDecodeUtf8Aux errOut rest1
        else errOut ++ pyDecodeUtf8Aux errOut (c1 :: rest1)
    else if 0xE0 ≤ b ∧ b ≤ 0xEF then
      match rest with
      | [] => errOut
      | c1 :: rest1 =>
        if (if b = 0xE0 then 0xA0 else 0x80) ≤ c1 ∧ c1 ≤ (if b = 0xED then 0x9F else 0xBF) then
          match rest1 with
          | [] => errOut
          | c2 :: rest2 =>
            if 0x80 ≤ c2 ∧ c2 ≤ 0xBF then
              Char.ofNat ((b - 0xE0) * 4096 + (c1 - 0x80) * 64 + (c2 - 0x80)) ::
                pyDecodeUtf8Aux errOut rest2
            else errOut ++ pyDecodeUtf8Aux errOut (c2 :: rest2)
        else errOut ++ pyDecodeUtf8Aux errOut (c1 :: rest1)
    else if 0xF0 ≤ b ∧ b ≤ 0xF4 then
      match rest with
      | [] => errOut
      | c1 :: rest1 =>
        if (if b = 0xF0 then 0x90 else 0x80) ≤ c1 ∧ c1 ≤ (if b = 0xF4 then 0x8F else 0xBF) then
          match rest1 with
          | [] => errOut
          | c2 :: rest2 =>
            if 0x80 ≤ c2 ∧ c2 ≤ 0xBF then
              match rest2 with
              | [] => errOut
              | c3 :: rest3 =>
                if 0x80 ≤ c3 ∧ c3 ≤ 0xBF then
                  Char.ofNat
                      ((b - 0xF0) * 262144 + (c1 - 0x80) * 4096 + (c2 - 0x80) * 64 + (c3 - 0x80)) ::
                    pyDecodeUtf8Aux errOut rest3
                else errOut ++ pyDecodeUtf8Aux errOut (c3 :: rest3)
            else errOut ++ pyDecodeUtf8Aux errOut (c2 :: rest2)
        else errOut ++ pyDecodeUtf8Aux errOut (c1 :: rest1)
    else errOut ++ pyDecodeUtf8Aux errOut rest

/-- Python `bs.decode('utf-8', errors='replace')` (never raises). -/
def pyDecodeReplace (bs : List Nat) : String :=
  ⟨pyDecodeUtf8Aux [replChar] bs⟩

/-- Python `bs.decode('utf-8', errors='ignore')` (never raises). -/
def pyDecodeIgnore (bs : List Nat) : String :=
  ⟨pyDecodeUtf8Aux [] bs⟩

/-- Python `str.isspace` for one character (the Unicode whitespace set). -/
def pyIsSpace (c : Char) : Bool :=
  decide ((9 ≤ c.toNat ∧ c.toNat ≤ 13) ∨ (28 ≤ c.toNat ∧ c.toNat ≤ 32) ∨ c.toNat = 0x85 ∨
    c.toNat = 0xA0 ∨ c.toNat = 0x1680 ∨ (0x2000 ≤ c.toNat ∧ c.toNat ≤ 0x200A) ∨
    c.toNat = 0x2028 ∨ c.toNat = 0x2029 ∨ c.toNat = 0x202F ∨ c.toNat = 0x205F ∨
    c.toNat = 0x3000)

/-- Python `str.strip()` with no argument: drop leading and trailing whitespace. -/
def pyStrip (s : String) : String :=
  ⟨((s.data.dropWhile pyIsSpace).reverse.dropWhile pyIsSpace).reverse⟩

/-- ASCII letter-or-digit test. -/
def asciiAlnum (c : Char) : Bool :=
  decide ((48 ≤ c.toNat ∧ c.toNat ≤ 57) ∨ (65 ≤ c.toNat ∧ c.toNat ≤ 90) ∨
    (97 ≤ c.toNat ∧ c.toNat ≤ 122))

/-- Python `c.isalnum() or ord(c) > 127` from the row filter.  This is exact:
below code point 128 the Unicode alphanumeric characters are the ASCII ones,
and at or above 128 the `ord(c) > 127` disjunct is true regardless. -/
def meaningfulChar (c : Char) : Bool :=
  decide (127 < c.toNat) || asciiAlnum c

/-- Python `str.isprintable` per character: exact on code points below 0x100
(printable iff not a `C*`/`Z*` category character); at or above 0x100 it is
modelled as printable unless Unicode whitespace (an approximation of the full
Unicode category table; no theorem in this file depends on this branch). -/
def pyPrintableChar (c : Char) : Bool :=
  if c.toNat < 0x100 then
    decide ((0x20 ≤ c.toNat ∧ c.toNat ≤ 0x7E) ∨ (0xA1 ≤ c.toNat ∧ c.toNat ≠ 0xAD))
  else !pyIsSpace c

/-- One MySQL protocol frame, `_parse_mysql_packets`'s per-packet dict
`{length, sequence, payload}`. -/
structure MySQLFrame where
  length : Nat
  sequence : Nat
  payload : List Nat
deriving DecidableEq, Repr

/-- The frame splitter `_parse_mysql_packets` (source lines 206-231): while at
least 4 bytes remain, read a 3-byte little-endian length and a 1-byte sequence
number; stop on a zero length or a truncated payload, else emit the frame and
advance past it.  `struct.unpack('<I', data[pos:pos+3] + b'\x00')` is the
little-endian value of the three header bytes. -/
def parse_mysql_packets (data : List Nat) : List MySQLFrame :=
  match data with
  | b0 :: b1 :: b2 :: s :: rest =>
    let length := b0 + 256 * b1 + 65536 * b2
    if length = 0 ∨ rest.length < length then []
    else
      { length := length, sequence := s, payload := rest.take length } ::
        parse_mysql_packets (rest.drop length)
  | _ => []
termination_by data.length
decreasing_by simp [List.length_drop]; omega

/-- The `_read_length_encoded_int` codec (source lines 233-257). -/
def read_length_encoded_int (data : List Nat) (offset : Nat) :
    Except Unit (Option Nat × Nat) :=
  if data.length ≤ offset then .ok (none, offset)
  else do
    let first ← byteAt data offset
    if first < 0xFB then .ok (some first, offset + 1)
    else if first = 0xFC ∧ offset + 3 ≤ data.length then do
      let v ← unpackLE 2 (pySlice data (offset + 1) (offset + 3))
      .ok (some v, offset + 3)
    else if first = 0xFD ∧ offset + 4 ≤ data.length then do
      let v ← unpackLE 4 (pySlice data (offset + 1) (offset + 4) ++ [0])
      .ok (some v, offset + 4)
    else if first = 0xFE ∧ offset + 9 ≤ data.length then do
      let v ← unpackLE 8 (pySlice data (offset + 1) (offset + 9))
      .ok (some v, offset + 9)
    else .ok (none, offset)

/-- The `_read_length_encoded_string` codec (source lines 259-276).  The
`try/except` around the decode is not modelled because
`decode('utf-8', errors='replace')` never raises. -/
def read_length_encoded_string (data : List Nat) (offset : Nat) :
    Except Unit (Option String × Nat) :=
  if data.length ≤ offset then .ok (none, offset)
  else do
    let b ← byteAt data offset
    if b = 0xFB then .ok (some "NULL", offset + 1)
    else do
      let r ← read_length_encoded_int data offset
      match r with
      | (none, _) => .ok (none, offset)
      | (some length, new_offset) =>
        if data.length < new_offset + length then .ok (none, offset)
        else
          .ok (some (pyDecodeReplace (pySlice data new_offset (new_offset + length))),
            new_offset + length)

/-- The `while` loop of `_try_parse_row` (source lines 478-496): starting from
`pos` with accumulated fields `row` and counter `parsed`, repeatedly consume a
NULL marker or a length-encoded string, stopping at a decode failure, a
non-advancing offset, or the end of the buffer.  Returns the accumulated
fields, the final offset, and the number of counted fields. -/
def row_scan (payload : List Nat) (pos : Nat) (row : List String) (parsed : Nat) :
    Except Unit (List String × Nat × Nat) :=
  if h : pos < payload.length then
    match byteAt payload pos with
    | .error e => .error e
    | .ok b =>
      if b = 0xFB then row_scan payload (pos + 1) (row ++ ["NULL"]) (parsed + 1)
      else
        match read_length_encoded_string payload pos with
        | .error e => .error e
        | .ok (none, _) => .ok (row, pos, parsed)
        | .ok (some value, new_pos) =>
          if hle : new_pos ≤ pos then .ok (row, pos, parsed)
          else if 0 < value.length ∧ value.length < 10000 then
            row_scan payload new_pos (row ++ [value]) (parsed + 1)
          else row_scan payload new_pos row parsed
  else .ok (row, pos, parsed)
termination_by payload.length - pos
decreasing_by
  · omega
  · omega
  · omega

/-- Body of `_try_parse_row` (source lines 475-504): run the field loop from
offset 0, then accept only when at least one field was counted and the final
offset covers at least 80% of the payload.  Python's float comparison
`pos >= len(payload) * 0.8` is modelled exactly as `4 * len ≤ 5 * pos`; for
every buffer size below 2^50 the two are equivalent (the IEEE-754 rounding of
`len * 0.8` never crosses an integer). -/
def try_parse_row_body (payload : List Nat) : Except Unit (Option (List String)) := do
  let r ← row_scan payload 0 [] 0
  match r with
  | (row, pos, parsed) =>
    if 1 ≤ parsed ∧ 4 * payload.length ≤ 5 * pos then .ok (some row)
    else .ok none

/-- The `_try_parse_row` heuristic with its blanket `try/except` handler: any
exception in the body yields `None`. -/
def try_parse_row (payload : List Nat) : Option (List String) :=
  match try_parse_row_body payload with
  | .ok r => r
  | .error _ => none

/-- The inner `clean_value` of `_decode_response` (source lines 426-431):
strip whitespace, drop every replacement character, strip again. -/
def clean_value (s : String) : String :=
  pyStrip ⟨(pyStrip s).data.filter (fun c => c ≠ replChar)⟩

/-- The row/field-definition branch of `_decode_response` (source lines
414-438), applied to a non-empty `row_data`. -/
def decode_row_data (row_data : List String) : Option String :=
  match row_data with
  | [] => none
  | f0 :: _ =>
    if f0 = "def" then
      if 5 ≤ row_data.length then
        let table := if 2 < row_data.length then row_data.getD 2 "" else ""
        let column := if 4 < row_data.length then row_data.getD 4 "" else ""
        if column ≠ "" ∧ column.data.all pyPrintableChar = true ∧ column.length < 64 ∧
            column.startsWith "?" = false then
          some (if table ≠ "" then "FIELD: " ++ table ++ "." ++ column
            else "FIELD: " ++ column)
        else none
      else none
    else
      let non_empty := (row_data.filter
        (fun v => v ≠ "" ∧ clean_value v ≠ "" ∧ 1 < (clean_value v).length)).map clean_value
      let meaningful := non_empty.filter (fun v => v.data.any meaningfulChar)
      if meaningful ≠ [] then some ("ROW: " ++ String.intercalate " | " non_empty)
      else none

/-- The `_decode_error` routine (source lines 446-459). -/
def decode_error (payload : List Nat) : Except Unit String :=
  if payload.length < 9 then .ok "ERROR"
  else do
    let error_code ← unpackLE 2 (pySlice payload 1 3)
    if pySlice payload 3 4 = [0x23] then
      .ok ("ERROR " ++ toString error_code ++ " (" ++ pyDecodeReplace (pySlice payload 4 9) ++
        "): " ++ pyDecodeReplace (pySlice payload 9 payload.length))
    else
      .ok ("ERROR " ++ toString error_code ++ ": " ++
        pyDecodeReplace (pySlice payload 3 payload.length))

/-- The `_decode_ok` routine (source lines 461-473). -/
def decode_ok (payload : List Nat) : Except Unit (Option String) :=
  if payload.length < 7 then .ok none
  else do
    let r1 ← read_length_encoded_int payload 1
    match r1 with
    | (affected_rows?, offset) =>
      let r2 ← read_length_encoded_int payload offset
      match affected_rows?, r2.1 with
      | some affected_rows, some insert_id =>
        if 0 < affected_rows ∨ 0 < insert_id then
          .ok (some ("OK: affected_rows=" ++ toString affected_rows ++ ", insert_id=" ++
            toString insert_id))
        else .ok none
      | _, _ => .ok none

/-- The `_decode_response` dispatcher (source lines 397-444): error packet,
silent short EOF, row/field heuristic, OK packet, in that order.  The Python
truthiness test `if row_data:` succeeds exactly when `_try_parse_row` returned
a non-empty list. -/
def decode_response (payload : List Nat) : Except Unit (Option String) :=
  if payload.length = 0 then .ok none
  else do
    let first ← byteAt payload 0
    if first = 0xFF then do
      let e ← decode_error payload
      .ok (some e)
    else if first = 0xFE ∧ payload.length < 9 then .ok none
    else
      match try_parse_row payload with
      | some (f0 :: rest0) => .ok (decode_row_data (f0 :: rest0))
      | _ =>
        if first = 0x00 ∧ payload.length < 50 then decode_ok payload
        else .ok none

/-- The `_decode_query` routine (source lines 306-312); its `try/except` body
cannot raise. -/
def decode_query (payload : List Nat) : Option String :=
  let sql := pyStrip (pyDecodeReplace (pySlice payload 1 payload.length))
  if sql ≠ "" then some sql else none

/-- The `_decode_init_db` routine (source lines 314-320). -/
def decode_init_db (payload : List Nat) : Option String :=
  let db := pyStrip (pyDecodeReplace (pySlice payload 1 payload.length))
  if db ≠ "" then some ("USE " ++ db) else none

/-- The `_decode_stmt_prepare` routine (source lines 322-328). -/
def decode_stmt_prepare (payload : List Nat) : Option String :=
  let sql := pyStrip (pyDecodeReplace (pySlice payload 1 payload.length))
  if sql ≠ "" then some ("[PREPARE] " ++ sql) else none

/-- The scanning loop of `_extract_params` (source lines 366-387): a printable
byte or a byte at or above 0xC0 (with at least one byte of lookahead) extends
the run of collected strings; any other byte flushes the run, keeping it as a
parameter when it has at least two elements.  The index `i` advances by one on
every iteration: lookahead bytes are re-examined, never skipped. -/
def params_scan (data : List Nat) (i : Nat) (current params : List String) :
    List String :=
  if h : i < data.length then
    let byte := byteD data i
    if 0x20 ≤ byte ∧ byte < 0x7F then
      params_scan data (i + 1) (current ++ [⟨[Char.ofNat byte]⟩]) params
    else if 0xC0 ≤ byte then
      if 0xE0 ≤ byte ∧ i + 2 < data.length then
        params_scan data (i + 1) (current ++ [pyDecodeIgnore (pySlice data i (i + 3))]) params
      else if i + 1 < data.length then
        params_scan data (i + 1) (current ++ [pyDecodeIgnore (pySlice data i (i + 2))]) params
      else params_scan data (i + 1) current params
    else
      if 2 ≤ current.length then params_scan data (i + 1) [] (params ++ [String.join current])
      else params_scan data (i + 1) [] params
  else if 2 ≤ current.length then params ++ [String.join current]
  else params
termination_by data.length - i

/-- The `_extract_params` heuristic (source lines 353-391): find the first
printable byte (defaulting to index 0), scan from there, and return the
collected parameters when any exist.  The `try/except` body cannot raise. -/
def extract_params (data : List Nat) : Option (List String) :=
  let text_start := (data.findIdx? (fun b => decide (0x20 ≤ b ∧ b < 0x7F))).getD 0
  let ps := params_scan data text_start [] []
  if ps ≠ [] then some ps else none

/-- The `_decode_stmt_execute` routine (source lines 330-344). -/
def decode_stmt_execute (payload : List Nat) : Except Unit String :=
  if payload.length < 10 then .ok "[EXECUTE] (incomplete)"
  else do
    let stmt_id ← unpackLE 4 (pySlice payload 1 5)
    let result := "[EXECUTE] stmt_id=" ++ toString stmt_id
    if 10 < payload.length then
      match extract_params (pySlice payload 10 payload.length) with
      | some params => .ok (result ++ ", params=[" ++ String.intercalate ", " params ++ "]")
      | none => .ok result
    else .ok result

/-- The `_decode_stmt_close` routine (source lines 346-351). -/
def decode_stmt_close (payload : List Nat) : Except Unit (Option String) :=
  if 5 ≤ payload.length then do
    let stmt_id ← unpackLE 4 (pySlice payload 1 5)
    .ok (some ("[STMT_CLOSE] stmt_id=" ++ toString stmt_id))
  else .ok none

/-- The `_decode_command` dispatcher (source lines 282-304). -/
def decode_command (payload : List Nat) : Except Unit (Option String) :=
  if payload.length = 0 then .ok none
  else do
    let cmd ← byteAt payload 0
    if cmd = 0x03 then .ok (decode_query payload)
    else if cmd = 0x02 then .ok (decode_init_db payload)
    else if cmd = 0x16 then .ok (decode_stmt_prepare payload)
    else if cmd = 0x17 then do
      let s ← decode_stmt_execute payload
      .ok (some s)
    else if cmd = 0x19 then decode_stmt_close payload
    else if cmd = 0x01 then .ok (some "[QUIT]")
    else if cmd = 0x0E then .ok (some "[PING]")
    else .ok none

/-- One captured TCP packet's addressing fields, as used by
`_extract_mysql_data`. -/
structure CapturedPacket where
  srcIp : String
  srcPort : Nat
  dstIp : String
  dstPort : Nat
deriving DecidableEq, Repr

/-- The connection-key construction of `_extract_mysql_data` (source lines
176-184): a packet whose destination port is the MySQL port is
client-to-server and keyed `src -> dst`; any other packet is keyed
`dst -> src`. -/
def conn_key (mysql_port : Nat) (p : CapturedPacket) : String :=
  if p.dstPort = mysql_port then
    p.srcIp ++ ":" ++ toString p.srcPort ++ " -> " ++ p.dstIp ++ ":" ++ toString p.dstPort
  else
    p.dstIp ++ ":" ++ toString p.dstPort ++ " -> " ++ p.srcIp ++ ":" ++ toString p.srcPort

/-- Concatenation of one frame per the framing of section 4.2 of the spec:
3-byte little-endian length, 1-byte sequence number, then the payload. -/
def encodeFrame (f : MySQLFrame) : List Nat :=
  [f.length % 256, f.length / 256 % 256, f.length / 65536 % 256, f.sequence % 256] ++ f.payload

/-- Concatenation of a whole sequence of frames. -/
def encodeFrames (fs : List MySQLFrame) : List Nat :=
  (fs.map encodeFrame).flatten

/-! ### Basic lemmas about the Python primitives -/

theorem ok_bind {ε α β : Type} (a : α) (f : α → Except ε β) :
    (Except.ok a >>= f : Except ε β) = f a := rfl

theorem byteAt_ok {d : List Nat} {i : Nat} (h : i < d.length) :
    byteAt d i = .ok (byteD d i) := by
  simp [byteAt, byteD, h, List.getD_eq_getElem d 0 h]

theorem pySlice_length (d : List Nat) (a b : Nat) :
    (pySlice d a b).length = min (b - a) (d.length - a) := by
  simp [pySlice]

theorem pySlice_cons {d : List Nat} {a b : Nat} (hab : a < b) (ha : a < d.length) :
    pySlice d a b = byteD d a :: pySlice d (a + 1) b := by
  unfold pySlice byteD
  rw [List.drop_eq_getElem_cons ha, List.getD_eq_getElem d 0 ha]
  have hba : b - a = (b - (a + 1)) + 1 := by omega
  rw [hba, List.take_succ_cons]

theorem pySlice_nil (d : List Nat) (a b : Nat) (h : b ≤ a) : pySlice d a b = [] := by
  unfold pySlice
  have : b - a = 0 := by omega
  simp [this]

theorem unpackLE_ok {n : Nat} {bs : List Nat} (h : bs.length = n) :
    unpackLE n bs = .ok (leValue bs) := by
  simp [unpackLE, h]

/-! ### Characterisation of `read_length_encoded_int` -/

theorem ri_oob {d : List Nat} {o : Nat} (h : d.length ≤ o) :
    read_length_encoded_int d o = .ok (none, o) := by
  simp [read_length_encoded_int, h]

theorem ri_small {d : List Nat} {o : Nat} (h : o < d.length) (hb : byteD d o < 0xFB) :
    read_length_encoded_int d o = .ok (some (byteD d o), o + 1) := by
  have hno : ¬ d.length ≤ o := by omega
  simp [read_length_encoded_int, hno, byteAt_ok h, ok_bind, hb]

theorem ri_fc {d : List Nat} {o : Nat} (h : o < d.length) (hb : byteD d o = 0xFC)
    (h3 : o + 3 ≤ d.length) :
    read_length_encoded_int d o =
      .ok (some (byteD d (o + 1) + 256 * byteD d (o + 2)), o + 3) := by
  have hno : ¬ d.length ≤ o := by omega
  have hs : pySlice d (o + 1) (o + 3) = [byteD d (o + 1), byteD d (o + 2)] := by
    rw [pySlice_cons (by omega) (by omega), pySlice_cons (by omega) (by omega),
      pySlice_nil d (o + 3) (o + 3) le_rfl]
  simp [read_length_encoded_int, hno, byteAt_ok h, ok_bind, hb, h3, hs,
    unpackLE, leValue]

theorem ri_fc_short {d : List Nat} {o : Nat} (h : o < d.length) (hb : byteD d o = 0xFC)
    (h3 : d.length < o + 3) :
    read_length_encoded_int d o = .ok (none, o) := by
  have hno : ¬ d.length ≤ o := by omega
  have h3' : ¬ o + 3 ≤ d.length := by omega
  simp [read_length_encoded_int, hno, byteAt_ok h, ok_bind, hb, h3']

theorem ri_fd {d : List Nat} {o : Nat} (h : o < d.length) (hb : byteD d o = 0xFD)
    (h4 : o + 4 ≤ d.length) :
    read_length_encoded_int d o =
      .ok (some (byteD d (o + 1) + 256 * byteD d (o + 2) + 65536 * byteD d (o + 3)),
        o + 4) := by
  have hno : ¬ d.length ≤ o := by omega
  have hs : pySlice d (o + 1) (o + 4) =
      [byteD d (o + 1), byteD d (o + 2), byteD d (o + 3)] := by
    rw [pySlice_cons (by omega) (by omega), pySlice_cons (by omega) (by omega),
      pySlice_cons (by omega) (by omega), pySlice_nil d (o + 4) (o + 4) le_rfl]
  simp [read_length_encoded_int, hno, byteAt_ok h, ok_bind, hb, h4, hs,
    unpackLE, leValue]
  ring

theorem ri_fd_short {d : List Nat} {o : Nat} (h : o < d.length) (hb : byteD d o = 0xFD)
    (h4 : d.length < o + 4) :
    read_length_encoded_int d o = .ok (none, o) := by
  have hno : ¬ d.length ≤ o := by omega
  have h4' : ¬ o + 4 ≤ d.length := by omega
  simp [read_length_encoded_int, hno, byteAt_ok h, ok_bind, hb, h4']

theorem ri_fe {d : List Nat} {o : Nat} (h : o < d.length) (hb : byteD d o = 0xFE)
    (h9 : o + 9 ≤ d.length) :
    read_length_encoded_int d o =
      .ok (some (leValue (pySlice d (o + 1) (o + 9))), o + 9) := by
  have hno : ¬ d.length ≤ o := by omega
  have hlen : (pySlice d (o + 1) (o + 9)).length = 8 := by
    rw [pySlice_length]; omega
  simp [read_length_encoded_int, hno, byteAt_ok h, ok_bind, hb, h9, unpackLE_ok hlen]

theorem ri_fe_short {d : List Nat} {o : Nat} (h : o < d.length) (hb : byteD d o = 0xFE)
    (h9 : d.length < o + 9) :
    read_length_encoded_int d o = .ok (none, o) := by
  have hno : ¬ d.length ≤ o := by omega
  have h9' : ¬ o + 9 ≤ d.length := by omega
  simp [read_length_encoded_int, hno, byteAt_ok h, ok_bind, hb, h9']

theorem ri_nomatch {d : List Nat} {o : Nat} (h : o < d.length)
    (hb1 : ¬ byteD d o < 0xFB) (hb2 : byteD d o ≠ 0xFC) (hb3 : byteD d o ≠ 0xFD)
    (hb4 : byteD d o ≠ 0xFE) :
    read_length_encoded_int d o = .ok (none, o) := by
  have hno : ¬ d.length ≤ o := by omega
  simp [read_length_encoded_int, hno, byteAt_ok h, ok_bind, hb1, hb2, hb3, hb4]

theorem ri_isOk (d : List Nat) (o : Nat) :
    ∃ r, read_length_encoded_int d o = .ok r := by
  rcases le_or_lt d.length o with h | h
  · exact ⟨_, ri_oob h⟩
  rcases lt_or_ge (byteD d o) 0xFB with hb | hb
  · exact ⟨_, ri_small h hb⟩
  by_cases h2 : byteD d o = 0xFC
  · rcases le_or_lt (o + 3) d.length with h3 | h3
    · exact ⟨_, ri_fc h h2 h3⟩
    · exact ⟨_, ri_fc_short h h2 h3⟩
  by_cases h3 : byteD d o = 0xFD
  · rcases le_or_lt (o + 4) d.length with h4 | h4
    · exact ⟨_, ri_fd h h3 h4⟩
    · exact ⟨_, ri_fd_short h h3 h4⟩
  by_cases h4 : byteD d o = 0xFE
  · rcases le_or_lt (o + 9) d.length with h9 | h9
    · exact ⟨_, ri_fe h h4 h9⟩
    · exact ⟨_, ri_fe_short h h4 h9⟩
  · exact ⟨_, ri_nomatch h (by omega) h2 h3 h4⟩

/-! ### Characterisation of `read_length_encoded_string` -/

theorem rs_oob {d : List Nat} {o : Nat} (h : d.length ≤ o) :
    read_length_encoded_string d o = .ok (none, o) := by
  simp [read_length_encoded_string, h]

theorem rs_null {d : List Nat} {o : Nat} (h : o < d.length) (hb : byteD d o = 0xFB) :
    read_length_encoded_string d o = .ok (some "NULL", o + 1) := by
  have hno : ¬ d.length ≤ o := by omega
  simp [read_length_encoded_string, hno, byteAt_ok h, ok_bind, hb]

theorem rs_int_fail {d : List Nat} {o o2 : Nat} (h : o < d.length) (hb : byteD d o ≠ 0xFB)
    (hri : read_length_encoded_int d o = .ok (none, o2)) :
    read_length_encoded_string d o = .ok (none, o) := by
  have hno : ¬ d.length ≤ o := by omega
  simp [read_length_encoded_string, hno, byteAt_ok h, ok_bind, hb, hri]

theorem rs_long {d : List Nat} {o o2 L : Nat} (h : o < d.length) (hb : byteD d o ≠ 0xFB)
    (hri : read_length_encoded_int d o = .ok (some L, o2)) (hlen : d.length < o2 + L) :
    read_length_encoded_string d o = .ok (none, o) := by
  have hno : ¬ d.length ≤ o := by omega
  simp [read_length_encoded_string, hno, byteAt_ok h, ok_bind, hb, hri, hlen]

theorem rs_ok {d : List Nat} {o o2 L : Nat} (h : o < d.length) (hb : byteD d o ≠ 0xFB)
    (hri : read_length_encoded_int d o = .ok (some L, o2)) (hlen : o2 + L ≤ d.length) :
    read_length_encoded_string d o =
      .ok (some (pyDecodeReplace (pySlice d o2 (o2 + L))), o2 + L) := by
  have hno : ¬ d.length ≤ o := by omega
  have hlen' : ¬ d.length < o2 + L := by omega
  simp [read_length_encoded_string, hno, byteAt_ok h, ok_bind, hb, hri, hlen']

theorem rs_isOk (d : List Nat) (o : Nat) :
    ∃ r, read_length_encoded_string d o = .ok r := by
  rcases le_or_lt d.length o with h | h
  · exact ⟨_, rs_oob h⟩
  by_cases hb : byteD d o = 0xFB
  · exact ⟨_, rs_null h hb⟩
  obtain ⟨⟨L?, o2⟩, hri⟩ := ri_isOk d o
  cases L? with
  | none => exact ⟨_, rs_int_fail h hb hri⟩
  | some L =>
    rcases le_or_lt (o2 + L) d.length with hlen | hlen
    · exact ⟨_, rs_ok h hb hri hlen⟩
    · exact ⟨_, rs_long h hb hri hlen⟩

/-! ### The decoders never let an exception escape -/

theorem decode_error_isOk (p : List Nat) : ∃ s, decode_error p = .ok s := by
  unfold decode_error
  rcases lt_or_ge p.length 9 with h9 | h9
  · simp [h9]
  have hu : (pySlice p 1 3).length = 2 := by rw [pySlice_length]; omega
  have h9' : ¬ p.length < 9 := by omega
  simp only [h9', if_false, unpackLE_ok hu, ok_bind]
  split <;> exact ⟨_, rfl⟩

theorem decode_ok_isOk (p : List Nat) : ∃ r, decode_ok p = .ok r := by
  unfold decode_ok
  rcases lt_or_ge p.length 7 with h7 | h7
  · simp [h7]
  have h7' : ¬ p.length < 7 := by omega
  obtain ⟨⟨a?, o1⟩, h1⟩ := ri_isOk p 1
  obtain ⟨⟨b?, o2⟩, h2⟩ := ri_isOk p o1
  simp only [h7', if_false, h1, ok_bind, h2]
  cases a? <;> cases b? <;> simp <;> split <;> simp

theorem decode_stmt_execute_isOk (p : List Nat) : ∃ s, decode_stmt_execute p = .ok s := by
  unfold decode_stmt_execute
  rcases lt_or_ge p.length 10 with h10 | h10
  · simp [h10]
  have h10' : ¬ p.length < 10 := by omega
  have hu : (pySlice p 1 5).length = 4 := by rw [pySlice_length]; omega
  simp only [h10', if_false, unpackLE_ok hu, ok_bind]
  split
  · split <;> exact ⟨_, rfl⟩
  · exact ⟨_, rfl⟩

theorem decode_stmt_close_isOk (p : List Nat) : ∃ r, decode_stmt_close p = .ok r := by
  unfold decode_stmt_close
  rcases le_or_lt 5 p.length with h5 | h5
  · have hu : (pySlice p 1 5).length = 4 := by rw [pySlice_length]; omega
    simp [h5, unpackLE_ok hu, ok_bind]
  · have h5' : ¬ 5 ≤ p.length := by omega
    simp [h5']

theorem decode_command_isOk (p : List Nat) : ∃ r, decode_command p = .ok r := by
  unfold decode_command
  rcases Nat.eq_zero_or_pos p.length with h0 | h0
  · simp [h0]
  have h0' : ¬ p.length = 0 := by omega
  obtain ⟨s, hs⟩ := decode_stmt_execute_isOk p
  obtain ⟨r, hr⟩ := decode_stmt_close_isOk p
  simp only [h0', if_false, byteAt_ok h0, ok_bind, hs, hr]
  split_ifs <;> exact ⟨_, rfl⟩

theorem decode_response_isOk (p : List Nat) : ∃ r, decode_response p = .ok r := by
  unfold decode_response
  rcases Nat.eq_zero_or_pos p.length with h0 | h0
  · simp [h0]
  have h0' : ¬ p.length = 0 := by omega
  obtain ⟨e, he⟩ := decode_error_isOk p
  obtain ⟨k, hk⟩ := decode_ok_isOk p
  rcases htpr : try_parse_row p with _ | row
  · simp only [h0', if_false, byteAt_ok h0, ok_bind, he, hk, htpr]
    split_ifs <;> exact ⟨_, rfl⟩
  · cases row with
    | nil =>
      simp only [h0', if_false, byteAt_ok h0, ok_bind, he, hk, htpr]
      split_ifs <;> exact ⟨_, rfl⟩
    | cons f0 rest0 =>
      simp only [h0', if_false, byteAt_ok h0, ok_bind, he, hk, htpr]
      split_ifs <;> exact ⟨_, rfl⟩

/-- Claim C6: for every byte-sequence payload, the Command Decoder and the
Response Decoder each terminate with a result (a text string or no event) and
never propagate an exception to the caller: every fallible primitive they
reach is guarded, so the `Except` computation always ends in `.ok`. -/
theorem c6_decoders_never_raise (payload : List Nat) :
    (∃ r, decode_command payload = .ok r) ∧ (∃ r, decode_response payload = .ok r) :=
  ⟨decode_command_isOk payload, decode_response_isOk payload⟩

/-- Claim C7: case table of `_read_length_encoded_int`.  A first byte below
0xFB is returned directly with the offset advanced by 1; 0xFC, 0xFD and 0xFE
read 2-, 3- and 8-byte little-endian values consuming 3, 4 and 9 bytes; an
offset at or past the end of the buffer, or missing trailing bytes, give
`(none, offset)` with the offset unchanged. -/
theorem c7_decode_int_cases (data : List Nat) (offset : Nat) :
    (data.length ≤ offset → read_length_encoded_int data offset = .ok (none, offset)) ∧
    (offset < data.length →
      (byteD data offset < 0xFB →
        read_length_encoded_int data offset = .ok (some (byteD data offset), offset + 1)) ∧
      (byteD data offset = 0xFC →
        (offset + 3 ≤ data.length →
          read_length_encoded_int data offset =
            .ok (some (byteD data (offset + 1) + 256 * byteD data (offset + 2)),
              offset + 3)) ∧
        (data.length < offset + 3 →
          read_length_encoded_int data offset = .ok (none, offset))) ∧
      (byteD data offset = 0xFD →
        (offset + 4 ≤ data.length →
          read_length_encoded_int data offset =
            .ok (some (byteD data (offset + 1) + 256 * byteD data (offset + 2) +
              65536 * byteD data (offset + 3)), offset + 4)) ∧
        (data.length < offset + 4 →
          read_length_encoded_int data offset = .ok (none, offset))) ∧
      (byteD data offset = 0xFE →
        (offset + 9 ≤ data.length →
          read_length_encoded_int data offset =
            .ok (some (leValue (pySlice data (offset + 1) (offset + 9))), offset + 9)) ∧
        (data.length < offset + 9 →
          read_length_encoded_int data offset = .ok (none, offset)))) :=
  ⟨fun h => ri_oob h,
   fun h =>
    ⟨fun hb => ri_small h hb,
     fun hb => ⟨fun h3 => ri_fc h hb h3, fun h3 => ri_fc_short h hb h3⟩,
     fun hb => ⟨fun h4 => ri_fd h hb h4, fun h4 => ri_fd_short h hb h4⟩,
     fun hb => ⟨fun h9 => ri_fe h hb h9, fun h9 => ri_fe_short h hb h9⟩⟩⟩

/-- Witness for C7: `decode_int({0xFC, 0x01, 0x02})` returns `(0x0201, 3)`,
and `decode_int({0xFC, 0x01})` returns `(None, 0)`. -/
theorem c7_decode_int_cases_witness :
    read_length_encoded_int [0xFC, 0x01, 0x02] 0 = .ok (some 0x0201, 3) ∧
    read_length_encoded_int [0xFC, 0x01] 0 = .ok (none, 0) := by
  constructor
  · have h := (((c7_decode_int_cases [0xFC, 0x01, 0x02] 0).2 (by decide)).2.1
      (by decide)).1 (by decide)
    simpa using h
  · have h := (((c7_decode_int_cases [0xFC, 0x01] 0).2 (by decide)).2.1
      (by decide)).2 (by decide)
    simpa using h

/-- Claim C10: inside the buffer, a first byte of 0xFB or 0xFF is never
decodable as a length-encoded integer: `_read_length_encoded_int` falls
through every branch of its dispatch and returns `(None, offset)` with the
offset unchanged, no matter how many bytes follow. -/
theorem c10_decode_int_fb_ff (data : List Nat) (offset : Nat)
    (h : offset < data.length)
    (hb : byteD data offset = 0xFB ∨ byteD data offset = 0xFF) :
    read_length_encoded_int data offset = .ok (none, offset) := by
  rcases hb with hb | hb <;>
    exact ri_nomatch h (by omega) (by omega) (by omega) (by omega)

/-- Witness for C10 at the concrete buffers `{0xFB, 1, 2}` and `{0xFF, 1, 2}`. -/
theorem c10_decode_int_fb_ff_witness :
    read_length_encoded_int [0xFB, 1, 2] 0 = .ok (none, 0) ∧
    read_length_encoded_int [0xFF, 1, 2] 0 = .ok (none, 0) :=
  ⟨c10_decode_int_fb_ff [0xFB, 1, 2] 0 (by decide) (Or.inl (by decide)),
   c10_decode_int_fb_ff [0xFF, 1, 2] 0 (by decide) (Or.inr (by decide))⟩

/-- Claim C8: `_read_length_encoded_string` returns `("NULL", offset+1)` on
the 0xFB marker regardless of what follows; otherwise it decodes a
length-encoded integer as the string length and returns the UTF-8-lossy
decode of that many following bytes with the offset advanced past them, and
it returns `(None, offset)` unchanged whenever the declared length would
exceed the remaining buffer. -/
theorem c8_decode_string_cases (data : List Nat) (offset : Nat) :
    (offset < data.length → byteD data offset = 0xFB →
      read_length_encoded_string data offset = .ok (some "NULL", offset + 1)) ∧
    (offset < data.length → byteD data offset ≠ 0xFB →
      ∀ L new_offset,
        read_length_encoded_int data offset = .ok (some L, new_offset) →
        (new_offset + L ≤ data.length →
          read_length_encoded_string data offset =
            .ok (some (pyDecodeReplace (pySlice data new_offset (new_offset + L))),
              new_offset + L)) ∧
        (data.length < new_offset + L →
          read_length_encoded_string data offset = .ok (none, offset))) :=
  ⟨fun h hb => rs_null h hb,
   fun h hb _ _ hri =>
    ⟨fun hlen => rs_ok h hb hri hlen, fun hlen => rs_long h hb hri hlen⟩⟩

/-- Witness for C8: `decode_string({0xFB, 9, 9})` is `("NULL", 1)`;
`decode_string({2, 'A', 'B'})` is `("AB", 3)`; `decode_string({5, 'A'})`
fails with the offset unchanged. -/
theorem c8_decode_string_cases_witness :
    read_length_encoded_string [0xFB, 9, 9] 0 = .ok (some "NULL", 1) ∧
    read_length_encoded_string [2, 65, 66] 0 = .ok (some "AB", 3) ∧
    read_length_encoded_string [5, 65] 0 = .ok (none, 0) := by
  refine ⟨(c8_decode_string_cases [0xFB, 9, 9] 0).1 (by decide) (by decide), ?_, ?_⟩
  · have h := (((c8_decode_string_cases [2, 65, 66] 0).2 (by decide) (by decide)) 2 1
      (by rfl)).1 (by decide)
    simpa using h
  · have h := (((c8_decode_string_cases [5, 65] 0).2 (by decide) (by decide)) 5 1
      (by rfl)).2 (by decide)
    simpa using h

/-! ### Lemmas about the UTF-8 decoder model -/

theorem pyDecodeUtf8Aux_ascii (errOut : List Char) {b : Nat} (l : List Nat)
    (hb : b < 0x80) :
    pyDecodeUtf8Aux errOut (b :: l) = Char.ofNat b :: pyDecodeUtf8Aux errOut l := by
  rw [pyDecodeUtf8Aux.eq_def]
  simp [hb]

theorem pyDecodeUtf8Aux_two (errOut : List Char) {b c : Nat} (l : List Nat)
    (hb : 0xC2 ≤ b ∧ b ≤ 0xDF) (hc : 0x80 ≤ c ∧ c ≤ 0xBF) :
    pyDecodeUtf8Aux errOut (b :: c :: l) =
      Char.ofNat ((b - 0xC0) * 64 + (c - 0x80)) :: pyDecodeUtf8Aux errOut l := by
  rw [pyDecodeUtf8Aux.eq_def]
  have hb' : ¬ b < 0x80 := by omega
  simp [hb', hb, hc]

set_option maxHeartbeats 1000000 in
theorem pyDecodeUtf8Aux_length_le {errOut : List Char} (he : errOut.length ≤ 1)
    (l : List Nat) : (pyDecodeUtf8Aux errOut l).length ≤ l.length := by
  induction l using pyDecodeUtf8Aux.induct errOut with
  | case1 => simp [pyDecodeUtf8Aux.eq_1]
  | case2 b rest hb ih =>
    rw [pyDecodeUtf8Aux.eq_def]
    simp only [hb, if_true, List.length_cons, if_pos]
    simpa using ih
  | case3 b h1 h2 =>
    rw [pyDecodeUtf8Aux.eq_def]
    simp_all
    try omega
    try (split_ifs <;> simp_all <;> omega)
  | case4 b h1 h2 c rest hc ih =>
    rw [pyDecodeUtf8Aux.eq_def]
    simp_all
    try omega
    try (split_ifs <;> simp_all <;> omega)
  | case5 b h1 h2 c rest hc ih =>
    rw [pyDecodeUtf8Aux.eq_def]
    simp_all
    try omega
    try (split_ifs <;> simp_all <;> omega)
  | case6 b h1 h2 h3 =>
    rw [pyDecodeUtf8Aux.eq_def]
    simp_all
    try omega
    try (split_ifs <;> simp_all <;> omega)
  | case7 b h1 h2 h3 c hc =>
    rw [pyDecodeUtf8Aux.eq_def]
    simp_all
    try omega
    try (split_ifs <;> simp_all <;> omega)
  | case8 b h1 h2 h3 c hc c2 rest hc2 ih =>
    rw [pyDecodeUtf8Aux.eq_def]
    simp_all
    try omega
    try (split_ifs <;> simp_all <;> omega)
  | case9 b h1 h2 h3 c hc c2 rest hc2 ih =>
    rw [pyDecodeUtf8Aux.eq_def]
    simp_all
    try omega
    try (split_ifs <;> simp_all <;> omega)
  | case10 b h1 h2 h3 c rest hc ih =>
    rw [pyDecodeUtf8Aux.eq_def]
    simp_all
    try omega
    try (split_ifs <;> simp_all <;> omega)
  | case11 b h1 h2 h3 h4 =>
    rw [pyDecodeUtf8Aux.eq_def]
    simp_all
    try omega
    try (split_ifs <;> simp_all <;> omega)
  | case12 b h1 h2 h3 h4 c hc =>
    rw [pyDecodeUtf8Aux.eq_def]
    simp_all
    try omega
    try (split_ifs <;> simp_all <;> omega)
  | case13 b h1 h2 h3 h4 c hc c2 hc2 =>
    rw [pyDecodeUtf8Aux.eq_def]
    simp_all
    try omega
    try (split_ifs <;> simp_all <;> omega)
  | case14 b h1 h2 h3 h4 c hc c2 hc2 c3 rest hc3 ih =>
    rw [pyDecodeUtf8Aux.eq_def]
    simp_all
    try omega
    try (split_ifs <;> simp_all <;> omega)
  | case15 b h1 h2 h3 h4 c hc c2 hc2 c3 rest hc3 ih =>
    rw [pyDecodeUtf8Aux.eq_def]
    simp_all
    try omega
    try (split_ifs <;> simp_all <;> omega)
  | case16 b h1 h2 h3 h4 c hc c2 rest hc2 ih =>
    rw [pyDecodeUtf8Aux.eq_def]
    simp_all
    try omega
    try (split_ifs <;> simp_all <;> omega)
  | case17 b h1 h2 h3 h4 c rest hc ih =>
    rw [pyDecodeUtf8Aux.eq_def]
    simp_all
    try omega
    try (split_ifs <;> simp_all <;> omega)
  | case18 b rest h1 h2 h3 h4 ih =>
    rw [pyDecodeUtf8Aux.eq_def]
    simp [h1, h2, h3, h4]
    omega

theorem pyDecodeReplace_length_le (l : List Nat) :
    (pyDecodeReplace l).length ≤ l.length := by
  have h := @pyDecodeUtf8Aux_length_le [replChar] (by simp) l
  simpa [pyDecodeReplace, String.length] using h

/-! ### Step lemmas for the `_try_parse_row` loop -/

theorem row_scan_stop {payload : List Nat} {pos parsed : Nat} {row : List String}
    (h : payload.length ≤ pos) :
    row_scan payload pos row parsed = .ok (row, pos, parsed) := by
  rw [row_scan]
  simp [show ¬ pos < payload.length by omega]

theorem row_scan_null {payload : List Nat} {pos parsed : Nat} {row : List String}
    (h : pos < payload.length) (hb : byteD payload pos = 0xFB) :
    row_scan payload pos row parsed =
      row_scan payload (pos + 1) (row ++ ["NULL"]) (parsed + 1) := by
  rw [row_scan]
  simp [h, byteAt_ok h, hb]

theorem row_scan_break {payload : List Nat} {pos parsed o2 : Nat} {row : List String}
    (h : pos < payload.length) (hb : byteD payload pos ≠ 0xFB)
    (hrs : read_length_encoded_string payload pos = .ok (none, o2)) :
    row_scan payload pos row parsed = .ok (row, pos, parsed) := by
  rw [row_scan]
  simp [h, byteAt_ok h, hb, hrs]

theorem row_scan_take {payload : List Nat} {pos parsed new_pos : Nat} {row : List String}
    {v : String} (h : pos < payload.length) (hb : byteD payload pos ≠ 0xFB)
    (hrs : read_length_encoded_string payload pos = .ok (some v, new_pos))
    (hgt : pos < new_pos) (hv : 0 < v.length ∧ v.length < 10000) :
    row_scan payload pos row parsed =
      row_scan payload new_pos (row ++ [v]) (parsed + 1) := by
  rw [row_scan]
  simp [h, byteAt_ok h, hb, hrs, show ¬ new_pos ≤ pos by omega, hv]

theorem row_scan_skip {payload : List Nat} {pos parsed new_pos : Nat} {row : List String}
    {v : String} (h : pos < payload.length) (hb : byteD payload pos ≠ 0xFB)
    (hrs : read_length_encoded_string payload pos = .ok (some v, new_pos))
    (hgt : pos < new_pos) (hv : ¬ (0 < v.length ∧ v.length < 10000)) :
    row_scan payload pos row parsed = row_scan payload new_pos row parsed := by
  rw [row_scan]
  simp [h, byteAt_ok h, hb, hrs, show ¬ new_pos ≤ pos by omega, hv]

theorem try_parse_row_accept {payload : List Nat} {row : List String} {pos parsed : Nat}
    (hscan : row_scan payload 0 [] 0 = .ok (row, pos, parsed))
    (hacc : 1 ≤ parsed ∧ 4 * payload.length ≤ 5 * pos) :
    try_parse_row payload = some row := by
  simp [try_parse_row, try_parse_row_body, hscan, ok_bind, hacc]

theorem try_parse_row_reject {payload : List Nat} {row : List String} {pos parsed : Nat}
    (hscan : row_scan payload 0 [] 0 = .ok (row, pos, parsed))
    (hrej : ¬ (1 ≤ parsed ∧ 4 * payload.length ≤ 5 * pos)) :
    try_parse_row payload = none := by
  simp [try_parse_row, try_parse_row_body, hscan, ok_bind, hrej]

/-! ### The response decoder's row path -/

theorem decode_response_row {payload : List Nat} {f0 : String} {rest0 : List String}
    (h0 : payload.length ≠ 0) (hff : byteD payload 0 ≠ 0xFF)
    (hfe : ¬ (byteD payload 0 = 0xFE ∧ payload.length < 9))
    (htpr : try_parse_row payload = some (f0 :: rest0)) :
    decode_response payload = .ok (decode_row_data (f0 :: rest0)) := by
  have h0' : 0 < payload.length := by omega
  simp [decode_response, h0, byteAt_ok h0', ok_bind, hff, hfe, htpr]

theorem decode_row_data_shape {f0 : String} (rest0 : List String) (hne : f0 ≠ "def") :
    decode_row_data (f0 :: rest0) = none ∨
      ∃ s, decode_row_data (f0 :: rest0) = some ("ROW: " ++ s) := by
  simp only [decode_row_data]
  rw [if_neg hne]
  split_ifs
  · exact Or.inr ⟨_, rfl⟩
  · exact Or.inl rfl

theorem row_text_ne_ok (s : String) :
    ("ROW: " ++ s) ≠ "OK: affected_rows=5, insert_id=10" := by
  intro h
  have hd := congrArg String.data h
  rw [String.data_append] at hd
  have hh := congrArg List.head? hd
  have hRO : (some 'R' : Option Char) = some 'O' := hh
  exact absurd hRO (by decide)

/-- Claim C4 (amended): in `_try_parse_row`, a payload whose field scan ends
exactly at the buffer end is accepted as a row provided at least one field was
counted (a NULL marker, or a decoded string of length strictly between 0 and
10000); and every payload whose scan halts at an offset below 80% of the
payload length is rejected. -/
theorem c4_row_threshold_amended (payload : List Nat) (row : List String)
    (pos parsed : Nat) (hscan : row_scan payload 0 [] 0 = .ok (row, pos, parsed)) :
    (pos = payload.length → 1 ≤ parsed → try_parse_row payload = some row) ∧
    (5 * pos < 4 * payload.length → try_parse_row payload = none) := by
  constructor
  · intro hpos hparsed
    exact try_parse_row_accept hscan ⟨hparsed, by omega⟩
  · intro hlt
    exact try_parse_row_reject hscan (by omega)

/-- Counterexample to C4 as stated: the payload `{0x00}` is fully consumable
as one length-encoded field (the empty string, scan ending at offset
1 = length), yet `_try_parse_row` rejects it because no field is counted. -/
theorem c4_counterexample :
    row_scan [0x00] 0 [] 0 = .ok ([], 1, 0) ∧ try_parse_row [0x00] = none := by
  have h1 : read_length_encoded_string [0x00] 0 = .ok (some "", 1) := by rfl
  have hscan : row_scan [0x00] 0 [] 0 = .ok ([], 1, 0) := by
    rw [row_scan_skip (by decide) (by decide) h1 (by decide) (by simp)]
    exact row_scan_stop (by decide)
  exact ⟨hscan, try_parse_row_reject hscan (by decide)⟩

/-- Witness for the amended C4: `{0x01, 'A'}` decodes one 1-character field,
covers the whole payload and is accepted. -/
theorem c4_row_threshold_amended_witness : try_parse_row [0x01, 0x41] = some ["A"] := by
  have h1 : read_length_encoded_string [0x01, 0x41] 0 = .ok (some "A", 2) := by rfl
  have hscan : row_scan [0x01, 0x41] 0 [] 0 = .ok (["A"], 2, 1) := by
    rw [row_scan_take (by decide) (by decide) h1 (by decide) (by decide)]
    exact row_scan_stop (by decide)
  exact (c4_row_threshold_amended [0x01, 0x41] ["A"] 2 1 hscan).1 (by decide) (by decide)

/-- Counterexample to C1 as stated: with padding bytes `"abcd"`, the payload
`{0x00, 0x05, 0x0A, 'a', 'b', 'c', 'd'}` is intercepted by the row heuristic
(rule 3 precedes the OK rule), so the Response Decoder emits `"ROW: abcd"`
and not `"OK: affected_rows=5, insert_id=10"`. -/
theorem c1_counterexample :
    decode_response [0x00, 0x05, 0x0A, 0x61, 0x62, 0x63, 0x64] =
      .ok (some "ROW: abcd") ∧
    decode_response [0x00, 0x05, 0x0A, 0x61, 0x62, 0x63, 0x64] ≠
      .ok (some "OK: affected_rows=5, insert_id=10") := by
  have h0 : read_length_encoded_string [0x00, 0x05, 0x0A, 0x61, 0x62, 0x63, 0x64] 0 =
      .ok (some "", 1) := by rfl
  have h1 : read_length_encoded_string [0x00, 0x05, 0x0A, 0x61, 0x62, 0x63, 0x64] 1 =
      .ok (some "\nabcd", 7) := by rfl
  have hscan : row_scan [0x00, 0x05, 0x0A, 0x61, 0x62, 0x63, 0x64] 0 [] 0 =
      .ok (["\nabcd"], 7, 1) := by
    rw [row_scan_skip (by decide) (by decide) h0 (by decide) (by simp)]
    rw [row_scan_take (by decide) (by decide) h1 (by decide) (by decide)]
    exact row_scan_stop (by decide)
  have htpr : try_parse_row [0x00, 0x05, 0x0A, 0x61, 0x62, 0x63, 0x64] =
      some ["\nabcd"] := try_parse_row_accept hscan (by decide)
  have hresp : decode_response [0x00, 0x05, 0x0A, 0x61, 0x62, 0x63, 0x64] =
      .ok (decode_row_data ["\nabcd"]) :=
    decode_response_row (by decide) (by decide) (by decide) htpr
  have hrow : decode_row_data ["\nabcd"] = some "ROW: abcd" := by decide
  rw [hresp, hrow]
  constructor
  · rfl
  · intro h
    simp only [Except.ok.injEq, Option.some.injEq] at h
    exact absurd h (by decide)

/-- Claim C1 (amended): for every 4 padding bytes, the payload
`{0x00, 0x05, 0x0A, b3, b4, b5, b6}` is always fully consumable by the row
heuristic, which runs before the OK rule, so the Response Decoder produces
either no event or a `"ROW: ..."` event, and never the text
`"OK: affected_rows=5, insert_id=10"`. -/
theorem c1_ok_payload_row_amended (b3 b4 b5 b6 : Nat) (hb3 : b3 < 256)
    (hb4 : b4 < 256) (hb5 : b5 < 256) (hb6 : b6 < 256) :
    (decode_response [0x00, 0x05, 0x0A, b3, b4, b5, b6] = .ok none ∨
      ∃ s, decode_response [0x00, 0x05, 0x0A, b3, b4, b5, b6] =
        .ok (some ("ROW: " ++ s))) ∧
    decode_response [0x00, 0x05, 0x0A, b3, b4, b5, b6] ≠
      .ok (some "OK: affected_rows=5, insert_id=10") := by
  have hv : pyDecodeReplace [0x0A, b3, b4, b5, b6] =
      ⟨'\n' :: pyDecodeUtf8Aux [replChar] [b3, b4, b5, b6]⟩ :=
    congrArg String.mk (pyDecodeUtf8Aux_ascii [replChar] [b3, b4, b5, b6] (by norm_num))
  have hvpos : 0 < (pyDecodeReplace [0x0A, b3, b4, b5, b6]).length := by
    rw [hv]
    simp [String.length]
  have hvlt : (pyDecodeReplace [0x0A, b3, b4, b5, b6]).length < 10000 := by
    have := pyDecodeReplace_length_le [0x0A, b3, b4, b5, b6]
    simp at this
    omega
  have hri0 : read_length_encoded_int [0x00, 0x05, 0x0A, b3, b4, b5, b6] 0 =
      .ok (some 0, 1) := ri_small (by simp) (by simp [byteD])
  have h0 : read_length_encoded_string [0x00, 0x05, 0x0A, b3, b4, b5, b6] 0 =
      .ok (some "", 1) := rs_ok (by simp) (by simp [byteD]) hri0 (by simp)
  have hri1 : read_length_encoded_int [0x00, 0x05, 0x0A, b3, b4, b5, b6] 1 =
      .ok (some 5, 2) := ri_small (by simp) (by simp [byteD])
  have h1 : read_length_encoded_string [0x00, 0x05, 0x0A, b3, b4, b5, b6] 1 =
      .ok (some (pyDecodeReplace [0x0A, b3, b4, b5, b6]), 7) :=
    rs_ok (by simp) (by simp [byteD]) hri1 (by simp)
  have hscan : row_scan [0x00, 0x05, 0x0A, b3, b4, b5, b6] 0 [] 0 =
      .ok ([pyDecodeReplace [0x0A, b3, b4, b5, b6]], 7, 1) := by
    rw [row_scan_skip (by simp) (by simp [byteD]) h0 (by omega) (by simp)]
    rw [row_scan_take (by simp) (by simp [byteD]) h1 (by omega) ⟨hvpos, hvlt⟩]
    exact row_scan_stop (by simp)
  have htpr : try_parse_row [0x00, 0x05, 0x0A, b3, b4, b5, b6] =
      some [pyDecodeReplace [0x0A, b3, b4, b5, b6]] :=
    try_parse_row_accept hscan (by constructor <;> simp)
  have hresp : decode_response [0x00, 0x05, 0x0A, b3, b4, b5, b6] =
      .ok (decode_row_data [pyDecodeReplace [0x0A, b3, b4, b5, b6]]) :=
    decode_response_row (by simp) (by simp [byteD]) (by simp [byteD]) htpr
  have hne : pyDecodeReplace [0x0A, b3, b4, b5, b6] ≠ "def" := by
    intro h
    rw [hv] at h
    have hd := congrArg String.data h
    have hRO : (some '\n' : Option Char) = some 'd' := congrArg List.head? hd
    exact absurd hRO (by decide)
  rcases decode_row_data_shape [] hne with hnone | ⟨s, hs⟩
  · rw [hresp, hnone]
    refine ⟨Or.inl rfl, ?_⟩
    intro h
    simp at h
  · rw [hresp, hs]
    refine ⟨Or.inr ⟨s, rfl⟩, ?_⟩
    intro h
    simp only [Except.ok.injEq, Option.some.injEq] at h
    exact absurd h (row_text_ne_ok s)

/-- Witness for the amended C1 at the concrete padding `"abcd"`. -/
theorem c1_ok_payload_row_amended_witness :
    (decode_response [0x00, 0x05, 0x0A, 97, 98, 99, 100] = .ok none ∨
      ∃ s, decode_response [0x00, 0x05, 0x0A, 97, 98, 99, 100] =
        .ok (some ("ROW: " ++ s))) ∧
    decode_response [0x00, 0x05, 0x0A, 97, 98, 99, 100] ≠
      .ok (some "OK: affected_rows=5, insert_id=10") :=
  c1_ok_payload_row_amended 97 98 99 100 (by decide) (by decide) (by decide) (by decide)

/-! ### Step lemmas for the `_extract_params` scan -/

theorem params_scan_end {data : List Nat} {i : Nat} {cur ps : List String}
    (h : data.length ≤ i) :
    params_scan data i cur ps =
      if 2 ≤ cur.length then ps ++ [String.join cur] else ps := by
  rw [params_scan]
  simp [show ¬ i < data.length by omega]

theorem params_scan_print {data : List Nat} {i : Nat} {cur ps : List String}
    (h : i < data.length) (hb : 0x20 ≤ byteD data i ∧ byteD data i < 0x7F) :
    params_scan data i cur ps =
      params_scan data (i + 1) (cur ++ [⟨[Char.ofNat (byteD data i)]⟩]) ps := by
  rw [params_scan]
  simp [h, hb]

theorem params_scan_three {data : List Nat} {i : Nat} {cur ps : List String}
    (h : i < data.length) (hb : ¬ (0x20 ≤ byteD data i ∧ byteD data i < 0x7F))
    (hc : 0xE0 ≤ byteD data i) (h3 : i + 2 < data.length) :
    params_scan data i cur ps =
      params_scan data (i + 1) (cur ++ [pyDecodeIgnore (pySlice data i (i + 3))]) ps := by
  rw [params_scan]
  simp [h, hb, show 0xC0 ≤ byteD data i by omega, hc, h3]

theorem params_scan_two {data : List Nat} {i : Nat} {cur ps : List String}
    (h : i < data.length) (hb : ¬ (0x20 ≤ byteD data i ∧ byteD data i < 0x7F))
    (hc : 0xC0 ≤ byteD data i) (h3 : ¬ (0xE0 ≤ byteD data i ∧ i + 2 < data.length))
    (h2 : i + 1 < data.length) :
    params_scan data i cur ps =
      params_scan data (i + 1) (cur ++ [pyDecodeIgnore (pySlice data i (i + 2))]) ps := by
  rw [params_scan]
  simp [h, hb, hc, h3, h2]

theorem params_scan_last {data : List Nat} {i : Nat} {cur ps : List String}
    (h : i < data.length) (hb : ¬ (0x20 ≤ byteD data i ∧ byteD data i < 0x7F))
    (hc : 0xC0 ≤ byteD data i) (h3 : ¬ (0xE0 ≤ byteD data i ∧ i + 2 < data.length))
    (h2 : ¬ i + 1 < data.length) :
    params_scan data i cur ps = params_scan data (i + 1) cur ps := by
  rw [params_scan]
  simp [h, hb, hc, h3, h2]

theorem params_scan_flush {data : List Nat} {i : Nat} {cur ps : List String}
    (h : i < data.length) (hb : ¬ (0x20 ≤ byteD data i ∧ byteD data i < 0x7F))
    (hc : byteD data i < 0xC0) :
    params_scan data i cur ps =
      params_scan data (i + 1) []
        (if 2 ≤ cur.length then ps ++ [String.join cur] else ps) := by
  rw [params_scan]
  simp [h, hb, show ¬ 0xC0 ≤ byteD data i by omega]
  split_ifs <;> rfl

theorem pyDecodeIgnore_two {b c : Nat} (hb : 0xC2 ≤ b ∧ b ≤ 0xDF)
    (hc : 0x80 ≤ c ∧ c ≤ 0xBF) :
    pyDecodeIgnore [b, c] = ⟨[Char.ofNat ((b - 0xC0) * 64 + (c - 0x80))]⟩ :=
  congrArg String.mk (pyDecodeUtf8Aux_two [] [] hb hc)

/-- Counterexample to C2 as stated: in the region
`{'a', 'b', 0xC3, 0xA9, 'c', 'd'}` the 2-byte UTF-8 character `é` is decoded
into the current run, but its continuation byte 0xA9 is re-examined on the
next iteration and flushes the run, so the heuristic reports two parameters
`["abé", "cd"]`, not the single parameter `"abécd"`. -/
theorem c2_counterexample :
    extract_params [0x61, 0x62, 0xC3, 0xA9, 0x63, 0x64] = some ["abé", "cd"] ∧
    (["abé", "cd"] : List String).length = 2 := by
  refine ⟨?_, by decide⟩
  simp only [extract_params]
  have hfind : (([0x61, 0x62, 0xC3, 0xA9, 0x63, 0x64] : List Nat).findIdx?
      (fun b => decide (0x20 ≤ b ∧ b < 0x7F))).getD 0 = 0 := by decide
  rw [hfind]
  rw [params_scan_print (by decide) (by decide)]
  rw [params_scan_print (by decide) (by decide)]
  rw [params_scan_two (by decide) (by decide) (by decide) (by decide) (by decide)]
  rw [params_scan_flush (by decide) (by decide) (by decide)]
  rw [params_scan_print (by decide) (by decide)]
  rw [params_scan_print (by decide) (by decide)]
  rw [params_scan_end (by decide)]
  decide

/-- Claim C2 (amended): a valid lead byte of a 2-byte UTF-8 sequence extends
the current run with the decoded character, but its continuation byte is NOT
consumed: the scan re-examines it on the next iteration and, being neither
printable nor at or above 0xC0, it flushes the run.  Consequently a multi-byte
UTF-8 character surrounded by two printable bytes on each side is reported as
two separate parameter strings, not one. -/
theorem c2_multibyte_flush_amended (p1 p2 p3 p4 lead cont : Nat)
    (hp1 : 0x20 ≤ p1 ∧ p1 < 0x7F) (hp2 : 0x20 ≤ p2 ∧ p2 < 0x7F)
    (hp3 : 0x20 ≤ p3 ∧ p3 < 0x7F) (hp4 : 0x20 ≤ p4 ∧ p4 < 0x7F)
    (hl : 0xC2 ≤ lead ∧ lead ≤ 0xDF) (hc : 0x80 ≤ cont ∧ cont ≤ 0xBF) :
    extract_params [p1, p2, lead, cont, p3, p4] =
      some [⟨[Char.ofNat p1, Char.ofNat p2,
          Char.ofNat ((lead - 0xC0) * 64 + (cont - 0x80))]⟩,
        ⟨[Char.ofNat p3, Char.ofNat p4]⟩] := by
  simp only [extract_params]
  have hfind : (([p1, p2, lead, cont, p3, p4] : List Nat).findIdx?
      (fun b => decide (0x20 ≤ b ∧ b < 0x7F))).getD 0 = 0 := by
    rw [List.findIdx?_cons]
    simp [hp1]
  rw [hfind]
  rw [params_scan_print (by simp) (by simpa [byteD] using hp1)]
  rw [params_scan_print (by simp) (by simpa [byteD] using hp2)]
  rw [params_scan_two (by simp) (by simp [byteD]; omega) (by simp [byteD]; omega)
    (by simp [byteD]; omega) (by simp)]
  rw [show pySlice [p1, p2, lead, cont, p3, p4] 2 4 = [lead, cont] from rfl]
  rw [pyDecodeIgnore_two hl hc]
  rw [params_scan_flush (by simp) (by simp [byteD]; omega) (by simp [byteD]; omega)]
  rw [params_scan_print (by simp) (by simpa [byteD] using hp3)]
  rw [params_scan_print (by simp) (by simpa [byteD] using hp4)]
  rw [params_scan_end (by simp)]
  simp [byteD]
  exact ⟨rfl, rfl⟩

/-- Witness for the amended C2 at `{'a', 'b', 0xC2, 0x80, 'c', 'd'}`. -/
theorem c2_multibyte_flush_amended_witness :
    extract_params [0x61, 0x62, 0xC2, 0x80, 0x63, 0x64] =
      some [⟨[Char.ofNat 0x61, Char.ofNat 0x62, Char.ofNat 0x80]⟩,
        ⟨[Char.ofNat 0x63, Char.ofNat 0x64]⟩] := by
  have h := c2_multibyte_flush_amended 0x61 0x62 0x63 0x64 0xC2 0x80
    (by decide) (by decide) (by decide) (by decide) (by decide) (by decide)
  simpa using h

/-! ### Frame splitter: round trip and safety -/

/-- Counterexample to C3 as stated: a zero-length frame encodes to the header
`{0, 0, 0, 0}`, on which the Frame Splitter stops without emitting anything,
so the original sequence is not reproduced. -/
theorem c3_counterexample :
    parse_mysql_packets (encodeFrames [{ length := 0, sequence := 0, payload := [] }]) ≠
      [{ length := 0, sequence := 0, payload := [] }] := by
  have henc : encodeFrames [({ length := 0, sequence := 0, payload := [] } : MySQLFrame)] =
      [0, 0, 0, 0] := rfl
  have hp : parse_mysql_packets [0, 0, 0, 0] = [] := by
    rw [parse_mysql_packets]
    simp
  rw [henc, hp]
  simp

/-- Claim C3 (amended): for every finite sequence of frames whose lengths are
nonzero and below 2^24, whose sequence numbers fit one byte, and with
`length = len(payload)`, concatenating them per the framing and applying the
Frame Splitter reproduces the original sequence exactly. -/
theorem c3_frame_roundtrip_amended (fs : List MySQLFrame)
    (h : ∀ f ∈ fs, 0 < f.length ∧ f.length < 16777216 ∧ f.sequence < 256 ∧
      f.payload.length = f.length) :
    parse_mysql_packets (encodeFrames fs) = fs := by
  induction fs with
  | nil =>
    have henc : encodeFrames [] = [] := rfl
    rw [henc, parse_mysql_packets]
    simp
  | cons f fs ih =>
    obtain ⟨hpos, hlt, hseq, hpl⟩ := h f (List.mem_cons_self f fs)
    have hrest : ∀ g ∈ fs, 0 < g.length ∧ g.length < 16777216 ∧ g.sequence < 256 ∧
        g.payload.length = g.length := fun g hg => h g (List.mem_cons_of_mem f hg)
    obtain ⟨l, s, p⟩ := f
    simp only [MySQLFrame.length] at hpos hlt
    simp only [MySQLFrame.sequence] at hseq
    simp only [MySQLFrame.payload, MySQLFrame.length] at hpl
    have henc : encodeFrames ({ length := l, sequence := s, payload := p } :: fs) =
        l % 256 :: l / 256 % 256 :: l / 65536 % 256 :: s % 256 ::
          (p ++ encodeFrames fs) := by
      simp [encodeFrames, encodeFrame]
    have hlen : l % 256 + 256 * (l / 256 % 256) + 65536 * (l / 65536 % 256) = l := by
      omega
    have hg : ¬ (l = 0 ∨ (p ++ encodeFrames fs).length < l) := by
      simp only [List.length_append, hpl]
      omega
    rw [henc, parse_mysql_packets]
    simp only [hlen]
    rw [if_neg hg]
    congr 1
    · simp [Nat.mod_eq_of_lt hseq, List.take_left' hpl]
    · rw [List.drop_left' hpl]
      exact ih hrest

/-- Witness for the amended C3 at a one-frame sequence with payload `{'A'}`. -/
theorem c3_frame_roundtrip_amended_witness :
    parse_mysql_packets
        (encodeFrames [{ length := 1, sequence := 0, payload := [0x41] }]) =
      [{ length := 1, sequence := 0, payload := [0x41] }] := by
  refine c3_frame_roundtrip_amended _ ?_
  intro f hf
  simp only [List.mem_singleton] at hf
  subst hf
  refine ⟨by decide, by decide, by decide, by decide⟩

/-- Claim C9: the Frame Splitter never emits a frame whose length field is
zero, every emitted frame satisfies `payload.len() = length`, and the total
number of bytes the emitted frames account for (4 header bytes plus payload
each) never exceeds the input buffer length — it never reads past the buffer
bound and silently drops a trailing partial frame. -/
theorem c9_frame_splitter_safety (data : List Nat) :
    (∀ f ∈ parse_mysql_packets data, 0 < f.length ∧ f.payload.length = f.length) ∧
    ((parse_mysql_packets data).map (fun f => 4 + f.length)).sum ≤ data.length := by
  induction data using parse_mysql_packets.induct with
  | case1 b0 b1 b2 s rest L hg =>
    have hg' : b0 + 256 * b1 + 65536 * b2 = 0 ∨
        rest.length < b0 + 256 * b1 + 65536 * b2 := hg
    rw [parse_mysql_packets]
    rw [if_pos hg']
    simp
  | case2 b0 b1 b2 s rest L hg ih =>
    have hg' : ¬ (b0 + 256 * b1 + 65536 * b2 = 0 ∨
        rest.length < b0 + 256 * b1 + 65536 * b2) := hg
    have hL : L = b0 + 256 * b1 + 65536 * b2 := rfl
    rw [hL] at ih
    rw [parse_mysql_packets]
    rw [if_neg hg']
    push_neg at hg'
    obtain ⟨hne, hle⟩ := hg'
    constructor
    · intro f hf
      rcases List.mem_cons.1 hf with hf | hf
      · subst hf
        constructor
        · show 0 < b0 + 256 * b1 + 65536 * b2
          omega
        · show (rest.take (b0 + 256 * b1 + 65536 * b2)).length =
            b0 + 256 * b1 + 65536 * b2
          simp only [List.length_take]
          omega
      · exact ih.1 f hf
    · have hsum := ih.2
      simp only [List.length_drop] at hsum
      simp at hsum ⊢
      omega
  | case3 x hx =>
    rcases x with _ | ⟨a, _ | ⟨b, _ | ⟨c, _ | ⟨d, rest⟩⟩⟩⟩
    · rw [parse_mysql_packets] <;> simp
    · rw [parse_mysql_packets] <;> simp
    · rw [parse_mysql_packets] <;> simp
    · rw [parse_mysql_packets] <;> simp
    · exact absurd rfl (hx a b c d rest)

/-- Witness for C9 on the buffer `{2, 0, 0, 7, 'A', 'B'}`, whose single
emitted frame has a nonzero length equal to its payload size. -/
theorem c9_frame_splitter_safety_witness :
    0 < (2 : Nat) ∧ ([0x41, 0x42] : List Nat).length = 2 := by
  have hp : parse_mysql_packets [2, 0, 0, 7, 0x41, 0x42] =
      [{ length := 2, sequence := 7, payload := [0x41, 0x42] }] := by
    rw [parse_mysql_packets]
    norm_num
    rw [parse_mysql_packets]
    simp
  have h := (c9_frame_splitter_safety [2, 0, 0, 7, 0x41, 0x42]).1
    { length := 2, sequence := 7, payload := [0x41, 0x42] } (by rw [hp]; simp)
  simpa using h

/-! ### Connection demultiplexer -/

/-- Counterexample to C5 as stated: in a flow whose two endpoints both use the
configured port 3306, the two directions are both classified client-to-server
and produce different keys. -/
theorem c5_counterexample :
    conn_key 3306 ⟨"10.0.0.1", 3306, "10.0.0.2", 3306⟩ ≠
      conn_key 3306 ⟨"10.0.0.2", 3306, "10.0.0.1", 3306⟩ := by
  decide

/-- Claim C5 (amended): for every TCP flow in which exactly one endpoint's
port equals the configured MySQL port, the two directions of the flow are
assigned the same connection key. -/
theorem c5_conn_key_amended (mysql_port : Nat) (ipA ipB : String) (portA portB : Nat)
    (hB : portB = mysql_port) (hA : portA ≠ mysql_port) :
    conn_key mysql_port ⟨ipA, portA, ipB, portB⟩ =
      conn_key mysql_port ⟨ipB, portB, ipA, portA⟩ := by
  subst hB
  simp [conn_key, hA]

/-- Witness for the amended C5: a client at port 5000 talking to a server at
port 3306 gets the same key in both directions. -/
theorem c5_conn_key_amended_witness :
    conn_key 3306 ⟨"10.0.0.1", 5000, "10.0.0.2", 3306⟩ =
      conn_key 3306 ⟨"10.0.0.2", 3306, "10.0.0.1", 5000⟩ :=
  c5_conn_key_amended 3306 "10.0.0.1" "10.0.0.2" 5000 3306 rfl (by decide)

end MySQLTools
